import Mathlib

/-!
Verification of the youtube-service repository: a shallow embedding of its
Express route handlers and of the JSON persistence helpers, with theorems
checking the specification's claims about them.

The repository contains several revision snapshots of the same server:
  * `src/unnamed/part_000` — the flat-schema revision (a category is a plain
    array of videos);
  * `src/unnamed/part_001` — a thumbnailed-schema revision (a category is an
    object with a `categoryThumbnail` string and a `videos` array);
  * `src/server.js` — three further snapshots: a minimal flat one (doc1),
    a full thumbnailed one (doc2) and a strict thumbnailed one (doc3).
Handlers are embedded per revision; the suffix of each definition names the
revision it is translated from.
-/

namespace YoutubeService

/-- A video record as stored in `videos.json`.  The JS handlers build
`\x7b title, description: description || "", url \x7d` and optionally add a
`thumbnail` key; since `JSON.stringify` drops `undefined` values, `title`,
`url` and `thumbnail` may be absent from the stored object (the part_001
POST handler pushes them unvalidated), so they are `Option String`;
`description` is always present. -/
structure Video where
  title : Option String
  description : String
  url : Option String
  thumbnail : Option String
deriving Repr, DecidableEq

/-- A category record in the thumbnailed schema (part_001 / server.js doc2,
doc3): `\x7b categoryThumbnail, videos \x7d`. -/
structure Category where
  categoryThumbnail : String
  videos : List Video
deriving Repr, DecidableEq

/-- The persisted catalog in the thumbnailed schema: the top-level JS object
of `videos.json`, a string-keyed insertion-ordered map from category name to
category record. -/
abbrev Catalog := List (String × Category)

/-- The persisted catalog in the flat schema (part_000 / server.js doc1):
category name maps straight to the array of videos. -/
abbrev FlatCatalog := List (String × List Video)

/-! JS-object primitives.  A JS object is modelled as an insertion-ordered
association list with unique keys; these four definitions embed the object
operations the handlers use. -/

/-- JS property read `obj[k]`: `none` when the key is absent. -/
def objGet {α : Type} : List (String × α) → String → Option α
  | [], _ => none
  | (k, v) :: rest, n => if k = n then some v else objGet rest n

/-- JS property write `obj[k] = v`: replaces the value at an existing key in
place, otherwise appends the key at the end (JS insertion order). -/
def objSet {α : Type} : List (String × α) → String → α → List (String × α)
  | [], n, v => [(n, v)]
  | (k, w) :: rest, n, v =>
      if k = n then (n, v) :: rest else (k, w) :: objSet rest n v

/-- JS `delete obj[k]`: removes the entry at key `k` (keys are unique in a JS
object, so removing the first occurrence removes the key). -/
def objDelete {α : Type} : List (String × α) → String → List (String × α)
  | [], _ => []
  | (k, w) :: rest, n => if k = n then rest else (k, w) :: objDelete rest n

/-- JS `Object.keys(obj)`, in insertion order. -/
def objKeys {α : Type} (obj : List (String × α)) : List String :=
  obj.map Prod.fst

/-- Truthiness of an optional string request field: `undefined` and the empty
string are falsy in JS, every other string is truthy.  This is the test
performed by `if (!title || !url)`, `if (!name)` and `if (!thumbnail)`. -/
def falsy : Option String → Bool
  | none => true
  | some s => s = ""

/-- An error response `res.status(s).json(\x7b error: msg \x7d)`. -/
structure ErrResp where
  status : Nat
  error : String
deriving Repr, DecidableEq

/-- The JSON body of a create-video request; absent fields are `none`. -/
structure VideoBody where
  title : Option String
  description : Option String
  url : Option String
  thumbnail : Option String
deriving Repr, DecidableEq

/-- A handler outcome: the HTTP response (error or success payload), paired
with the catalog passed to `writeVideos` — `none` when the handler returned
without calling `writeVideos`. -/
abbrev HandlerOut (σ α : Type) := Except ErrResp α × Option σ

/-! ### part_001 handlers (thumbnailed schema) -/

/-- `GET /api/videos/:category` response in part_001: the raw stored record
when the category exists, otherwise the literal fallback `\x7b videos: [] \x7d`
(no 404 in this revision). -/
inductive CatVideosResp
  | record (c : Category)
  | fallback
deriving Repr, DecidableEq

/-- part_001 lines 46-52, `GET /api/videos/:category`:
`res.json(videosData[category] || \x7b videos: [] \x7d)` — always a 200. -/
def getVideosByCategory_p001 (category : String) (cat : Catalog) : CatVideosResp :=
  match objGet cat category with
  | some c => .record c
  | none => .fallback

/-- The video object a POST handler constructs from the request body:
`\x7b title, description: description || "", url \x7d`, plus `thumbnail` when
truthy. -/
def mkVideo (body : VideoBody) : Video :=
  { title := body.title
    description := (body.description).getD ""
    url := body.url
    thumbnail := if falsy body.thumbnail then none else body.thumbnail }

/-- part_001 lines 55-76, `POST /api/videos/:category`: 404 when the category
does not exist, otherwise push the new video and save.  NOTE: unlike every
other revision, this handler performs no `if (!title || !url)` check. -/
def postVideo_p001 (category : String) (body : VideoBody) (cat : Catalog) :
    HandlerOut Catalog (List Video) :=
  match objGet cat category with
  | none => (.error ⟨404, "Category does not exist"⟩, none)
  | some c =>
      let vs := c.videos ++ [mkVideo body]
      let cat' := objSet cat category { c with videos := vs }
      (.ok vs, some cat')

/-- part_001 lines 78-90 (and the identical server.js doc2/doc3 handlers),
`DELETE /api/videos/:category/:index`: 404 unless the category exists and
holds a video at the index, otherwise `splice(index, 1)` and save. -/
def deleteVideo_p001 (category : String) (index : Nat) (cat : Catalog) :
    HandlerOut Catalog (List Video) :=
  match objGet cat category with
  | none => (.error ⟨404, "Video not found"⟩, none)
  | some c =>
      if index < c.videos.length then
        let vs := c.videos.eraseIdx index
        let cat' := objSet cat category { c with videos := vs }
        (.ok vs, some cat')
      else (.error ⟨404, "Video not found"⟩, none)

/-- part_001 lines 97-104 (same in server.js doc2/doc3),
`GET /api/categories`: the list of
`\x7b name, categoryThumbnail: videos[cat].categoryThumbnail || "" \x7d`. -/
def getCategories_p001 (cat : Catalog) : List (String × String) :=
  cat.map fun e => (e.1, e.2.categoryThumbnail)

/-- part_001 lines 107-118 (same in server.js doc2/doc3),
`POST /api/categories`: 400 when the name is falsy, 400 "already exists" when
the key is present, otherwise insert an empty thumbnailed category. -/
def postCategory_p001 (name : Option String) (cat : Catalog) :
    HandlerOut Catalog (List String) :=
  if falsy name then (.error ⟨400, "Category name is required"⟩, none)
  else
    let n := name.getD ""
    match objGet cat n with
    | some _ => (.error ⟨400, "Category already exists"⟩, none)
    | none =>
        let cat' := objSet cat n { categoryThumbnail := "", videos := [] }
        (.ok (objKeys cat'), some cat')

/-- part_001 lines 121-134 (same in server.js doc2/doc3),
`PATCH /api/categories/:name/thumbnail`: 400 when the thumbnail is falsy,
404 when the category is absent, otherwise set `categoryThumbnail`, save and
return the thumbnail. -/
def patchCategoryThumbnail_p001 (name : String) (thumbnail : Option String)
    (cat : Catalog) : HandlerOut Catalog String :=
  if falsy thumbnail then (.error ⟨400, "Thumbnail URL is required"⟩, none)
  else
    let t := thumbnail.getD ""
    match objGet cat name with
    | none => (.error ⟨404, "Category not found"⟩, none)
    | some c =>
        let cat' := objSet cat name { c with categoryThumbnail := t }
        (.ok t, some cat')

/-- part_001 lines 137-147 (same in server.js doc2/doc3),
`DELETE /api/categories/:name`: 404 when absent, otherwise
`delete videos[name]`, save, and return `Object.keys`. -/
def deleteCategory_p001 (name : String) (cat : Catalog) :
    HandlerOut Catalog (List String) :=
  match objGet cat name with
  | none => (.error ⟨404, "Category not found"⟩, none)
  | some _ =>
      let cat' := objDelete cat name
      (.ok (objKeys cat'), some cat')

/-! ### server.js doc2 handlers (thumbnailed schema, full) -/

/-- server.js lines 118-127 (doc2; doc3 lines 287-293 are identical),
`GET /api/videos/:category`: 404 when the category is absent, otherwise the
category's `videos` array. -/
def getVideosByCategory_srv2 (category : String) (cat : Catalog) :
    Except ErrResp (List Video) :=
  match objGet cat category with
  | none => .error ⟨404, "Category not found"⟩
  | some c => .ok c.videos

/-- server.js lines 151-166 (doc2),
`PATCH /api/videos/:category/:index/thumbnail`: 400 when the thumbnail is
falsy, 404 unless category and index resolve to a video, otherwise set that
video's `thumbnail` field, save, and return the updated array. -/
def patchVideoThumbnail_srv2 (category : String) (index : Nat)
    (thumbnail : Option String) (cat : Catalog) :
    HandlerOut Catalog (List Video) :=
  if falsy thumbnail then (.error ⟨400, "Thumbnail URL is required"⟩, none)
  else
    let t := thumbnail.getD ""
    match objGet cat category with
    | none => (.error ⟨404, "Video not found"⟩, none)
    | some c =>
        if h : index < c.videos.length then
          let vs := c.videos.set index
            { c.videos.get ⟨index, h⟩ with thumbnail := some t }
          let cat' := objSet cat category { c with videos := vs }
          (.ok vs, some cat')
        else (.error ⟨404, "Video not found"⟩, none)

/-! ### Flat-schema handlers (part_000 and server.js doc1) -/

/-- part_000 lines 44-53, `GET /api/videos/:category` (flat): 404 when the
category is absent, otherwise its array. -/
def getVideosByCategory_p000 (category : String) (cat : FlatCatalog) :
    Except ErrResp (List Video) :=
  match objGet cat category with
  | none => .error ⟨404, "Category not found"⟩
  | some vs => .ok vs

/-- server.js lines 40-55 (doc1) and part_000 lines 56-71,
`POST /api/videos/:category` (flat): 400 when `title` or `url` is falsy;
otherwise auto-create the category as `[]` if absent and push
`\x7b title, description: description || "", url \x7d`. -/
def postVideo_flat (category : String) (body : VideoBody) (cat : FlatCatalog) :
    HandlerOut FlatCatalog (List Video) :=
  if falsy body.title || falsy body.url then
    (.error ⟨400, "Title and URL are required"⟩, none)
  else
    let current := (objGet cat category).getD []
    let vs := current ++
      [{ title := body.title, description := (body.description).getD ""
         url := body.url, thumbnail := none }]
    let cat' := objSet cat category vs
    (.ok vs, some cat')

/-- server.js lines 58-70 (doc1) and part_000 lines 74-86,
`DELETE /api/videos/:category/:index` (flat): 404 unless the category and
index resolve to a video, otherwise `splice(index, 1)` and save. -/
def deleteVideo_flat (category : String) (index : Nat) (cat : FlatCatalog) :
    HandlerOut FlatCatalog (List Video) :=
  match objGet cat category with
  | none => (.error ⟨404, "Video not found"⟩, none)
  | some vs =>
      if index < vs.length then
        let vs' := vs.eraseIdx index
        let cat' := objSet cat category vs'
        (.ok vs', some cat')
      else (.error ⟨404, "Video not found"⟩, none)

/-- part_000 lines 93-106, `POST /api/categories` (flat): 400 when the name
is falsy, 400 "already exists" when present, otherwise insert `[]`. -/
def postCategory_p000 (name : Option String) (cat : FlatCatalog) :
    HandlerOut FlatCatalog (List String) :=
  if falsy name then (.error ⟨400, "Category name is required"⟩, none)
  else
    let n := name.getD ""
    match objGet cat n with
    | some _ => (.error ⟨400, "Category already exists"⟩, none)
    | none =>
        let cat' := objSet cat n []
        (.ok (objKeys cat'), some cat')

/-- part_000 lines 109-121, `DELETE /api/categories/:name` (flat): 404 when
absent, otherwise delete the key, save, return `Object.keys`. -/
def deleteCategory_p000 (name : String) (cat : FlatCatalog) :
    HandlerOut FlatCatalog (List String) :=
  match objGet cat name with
  | none => (.error ⟨404, "Category not found"⟩, none)
  | some _ =>
      let cat' := objDelete cat name
      (.ok (objKeys cat'), some cat')

/-- part_000 lines 124-127, `GET /api/categories` (flat): the key list. -/
def getCategories_p000 (cat : FlatCatalog) : List String :=
  objKeys cat

/-! ### The Store: `videos.json` on disk

`readVideos` / `writeVideos` (identical in every revision) persist the whole
catalog as `JSON.stringify(videos, null, 2)` and recover it with
`JSON.parse`, returning the empty object on any failure.  The serializer
below reproduces `JSON.stringify(_, null, 2)` on catalog values (two-space
indentation, `": "` separators, key insertion order, `undefined` fields
dropped, strings escaped as V8 does); the parser is a recursive-descent
reader of that JSON shape.  Fuel arguments on the two unbounded loops are a
termination device only; `parseCatalog` supplies more fuel than any input
can consume. -/

/-- Lowercase hex digit, as used in `\u00XX` escapes. -/
def hexDigitChar (n : Nat) : Char :=
  if n < 10 then Char.ofNat (48 + n) else Char.ofNat (87 + n)

/-- Numeric value of a hex digit character. -/
def hexVal (c : Char) : Option Nat :=
  if '0' ≤ c ∧ c ≤ '9' then some (c.toNat - 48)
  else if 'a' ≤ c ∧ c ≤ 'f' then some (c.toNat - 87)
  else if 'A' ≤ c ∧ c ≤ 'F' then some (c.toNat - 55)
  else none

/-- JSON string escaping of one character, as `JSON.stringify` performs it:
quote and backslash get a backslash escape, the control characters with
short forms use them, remaining control characters become `\u00XX`, and
everything else is emitted verbatim. -/
def escChar (c : Char) : List Char :=
  if c = '"' then ['\\', '"']
  else if c = '\\' then ['\\', '\\']
  else if c = Char.ofNat 8 then ['\\', 'b']
  else if c = Char.ofNat 9 then ['\\', 't']
  else if c = Char.ofNat 10 then ['\\', 'n']
  else if c = Char.ofNat 12 then ['\\', 'f']
  else if c = Char.ofNat 13 then ['\\', 'r']
  else if c.toNat < 32 then
    ['\\', 'u', '0', '0', hexDigitChar (c.toNat / 16), hexDigitChar (c.toNat % 16)]
  else [c]

/-- A JSON string literal: `"` ++ escaped contents ++ `"`. -/
def quoteC (s : String) : List Char :=
  '"' :: (s.data.flatMap escChar ++ ['"'])

/-- `n` spaces of pretty-printer indentation. -/
def spacesC (n : Nat) : List Char := List.replicate n ' '

/-- The key/value string fields `JSON.stringify` emits for a video, in
insertion order; `undefined` fields (`none`) are dropped. -/
def videoFields (v : Video) : List (String × String) :=
  (match v.title with | some t => [("title", t)] | none => []) ++
  [("description", v.description)] ++
  (match v.url with | some u => [("url", u)] | none => []) ++
  (match v.thumbnail with | some t => [("thumbnail", t)] | none => [])

/-- One `"key": "value"` line at the given indentation. -/
def serStrField (ind : Nat) (k v : String) : List Char :=
  spacesC ind ++ quoteC k ++ ':' :: ' ' :: quoteC v

/-- Comma-and-newline separated field lines. -/
def serFieldsSep (ind : Nat) : List (String × String) → List Char
  | [] => []
  | [f] => serStrField ind f.1 f.2
  | f :: g :: rest => serStrField ind f.1 f.2 ++ ',' :: '\n' :: serFieldsSep ind (g :: rest)

/-- A video object, pretty-printed with its closing brace at column `ind`. -/
def serVideo (ind : Nat) (v : Video) : List Char :=
  '{' :: '\n' :: (serFieldsSep (ind + 2) (videoFields v) ++ '\n' :: (spacesC ind ++ ['}']))

/-- Comma-and-newline separated, indented video elements. -/
def serVideosSep (ind : Nat) : List Video → List Char
  | [] => []
  | [v] => spacesC ind ++ serVideo ind v
  | v :: w :: rest =>
      spacesC ind ++ serVideo ind v ++ ',' :: '\n' :: serVideosSep ind (w :: rest)

/-- A video array: `[]` when empty, otherwise one element per line. -/
def serVideoArr (ind : Nat) : List Video → List Char
  | [] => ['[', ']']
  | v :: rest =>
      '[' :: '\n' :: (serVideosSep (ind + 2) (v :: rest) ++ '\n' :: (spacesC ind ++ [']']))

/-- A category record `\x7b categoryThumbnail, videos \x7d`, keys in their
insertion order. -/
def serCategory (ind : Nat) (c : Category) : List Char :=
  '{' :: '\n' ::
    (spacesC (ind + 2) ++ quoteC "categoryThumbnail" ++ ':' :: ' ' ::
      quoteC c.categoryThumbnail ++ ',' :: '\n' ::
    (spacesC (ind + 2) ++ quoteC "videos" ++ ':' :: ' ' ::
      serVideoArr (ind + 2) c.videos ++ '\n' :: (spacesC ind ++ ['}'])))

/-- Comma-and-newline separated, indented catalog entries. -/
def serEntriesSep (ind : Nat) : Catalog → List Char
  | [] => []
  | [e] => spacesC ind ++ quoteC e.1 ++ ':' :: ' ' :: serCategory ind e.2
  | e :: f :: rest =>
      spacesC ind ++ quoteC e.1 ++ ':' :: ' ' :: serCategory ind e.2 ++
        ',' :: '\n' :: serEntriesSep ind (f :: rest)

/-- `JSON.stringify(videos, null, 2)` on a catalog, as a character list. -/
def serCatalogChars : Catalog → List Char
  | [] => ['{', '}']
  | e :: rest => '{' :: '\n' :: (serEntriesSep 2 (e :: rest) ++ '\n' :: ['}'])

/-- `JSON.stringify(videos, null, 2)` on a catalog. -/
def serializeCatalog (c : Catalog) : String := String.mk (serCatalogChars c)

/-! JSON reader. -/

/-- Is `c` JSON insignificant whitespace? -/
def isWsChar (c : Char) : Bool :=
  c = ' ' || c = '\n' || c = '\t' || c = '\r'

/-- Skip leading whitespace. -/
def skipWs : List Char → List Char
  | [] => []
  | c :: r => if isWsChar c then skipWs r else c :: r

/-- Expect the token `c` after optional whitespace. -/
def expectTok (c : Char) (l : List Char) : Option (List Char) :=
  match skipWs l with
  | [] => none
  | x :: r => if x = c then some r else none

/-- Read JSON string contents after the opening quote, undoing escapes, up
to the closing quote; returns the contents and the remaining input. -/
def lexStrAux : List Char → Option (List Char × List Char)
  | [] => none
  | c :: rest =>
    if c = '"' then some ([], rest)
    else if c = '\\' then
      match rest with
      | [] => none
      | e :: r2 =>
        if e = '"' then (lexStrAux r2).map fun p => ('"' :: p.1, p.2)
        else if e = '\\' then (lexStrAux r2).map fun p => ('\\' :: p.1, p.2)
        else if e = '/' then (lexStrAux r2).map fun p => ('/' :: p.1, p.2)
        else if e = 'b' then (lexStrAux r2).map fun p => (Char.ofNat 8 :: p.1, p.2)
        else if e = 't' then (lexStrAux r2).map fun p => (Char.ofNat 9 :: p.1, p.2)
        else if e = 'n' then (lexStrAux r2).map fun p => (Char.ofNat 10 :: p.1, p.2)
        else if e = 'f' then (lexStrAux r2).map fun p => (Char.ofNat 12 :: p.1, p.2)
        else if e = 'r' then (lexStrAux r2).map fun p => (Char.ofNat 13 :: p.1, p.2)
        else if e = 'u' then
          match r2 with
          | h1 :: h2 :: h3 :: h4 :: r3 =>
            match hexVal h1, hexVal h2, hexVal h3, hexVal h4 with
            | some a, some b, some x, some d =>
                (lexStrAux r3).map fun p =>
                  (Char.ofNat (((a * 16 + b) * 16 + x) * 16 + d) :: p.1, p.2)
            | _, _, _, _ => none
          | _ => none
        else none
    else (lexStrAux rest).map fun p => (c :: p.1, p.2)

/-- Read a JSON string literal (after optional whitespace). -/
def parseStrLit (l : List Char) : Option (String × List Char) := do
  let r ← expectTok '"' l
  let (cs, rest) ← lexStrAux r
  pure (String.mk cs, rest)

/-- Read at most `fuel` comma-separated `"key": "value"` fields followed by
the closing `\x7d` of their object. -/
def parseFieldsAux : Nat → List Char → Option (List (String × String) × List Char)
  | 0, _ => none
  | fuel + 1, l => do
    let (k, r1) ← parseStrLit l
    let r2 ← expectTok ':' r1
    let (v, r3) ← parseStrLit r2
    match skipWs r3 with
    | ',' :: r4 => (parseFieldsAux fuel r4).map fun p => ((k, v) :: p.1, p.2)
    | '}' :: r4 => some ([(k, v)], r4)
    | _ => none

/-- Read a video object: its string fields, from which the stored record is
rebuilt (`description` is always present in a stored video; the optional
keys default to absent, exactly as the handlers leave them). -/
def parseVideo (l : List Char) : Option (Video × List Char) := do
  let r ← expectTok '{' l
  let (fs, rest) ← parseFieldsAux 4 r
  let d ← objGet fs "description"
  pure ({ title := objGet fs "title", description := d, url := objGet fs "url",
          thumbnail := objGet fs "thumbnail" }, rest)

/-- Read at most `fuel` comma-separated video elements followed by the
closing `]` of their array. -/
def parseVideosAux : Nat → List Char → Option (List Video × List Char)
  | 0, _ => none
  | fuel + 1, l => do
    let (v, r1) ← parseVideo l
    match skipWs r1 with
    | ',' :: r2 => (parseVideosAux fuel r2).map fun p => (v :: p.1, p.2)
    | ']' :: r2 => some ([v], r2)
    | _ => none

/-- Read a video array (`[]` or a non-empty element list). -/
def parseVideoArr (fuel : Nat) (l : List Char) : Option (List Video × List Char) := do
  let r ← expectTok '[' l
  match skipWs r with
  | ']' :: r2 => some ([], r2)
  | _ => parseVideosAux fuel r

/-- Read a category record: `categoryThumbnail` then `videos`, the key order
every revision writes. -/
def parseCategory (fuel : Nat) (l : List Char) : Option (Category × List Char) := do
  let r ← expectTok '{' l
  let (k1, r1) ← parseStrLit r
  if k1 = "categoryThumbnail" then
    let r2 ← expectTok ':' r1
    let (thumb, r3) ← parseStrLit r2
    let r4 ← expectTok ',' r3
    let (k2, r5) ← parseStrLit r4
    if k2 = "videos" then
      let r6 ← expectTok ':' r5
      let (vs, r7) ← parseVideoArr fuel r6
      let r8 ← expectTok '}' r7
      pure ({ categoryThumbnail := thumb, videos := vs }, r8)
    else none
  else none

/-- Read at most `fuel` comma-separated catalog entries followed by the
closing `\x7d`; `vfuel` bounds each entry's video count. -/
def parseEntriesAux (vfuel : Nat) : Nat → List Char → Option (Catalog × List Char)
  | 0, _ => none
  | fuel + 1, l => do
    let (k, r1) ← parseStrLit l
    let r2 ← expectTok ':' r1
    let (c, r3) ← parseCategory vfuel r2
    match skipWs r3 with
    | ',' :: r4 => (parseEntriesAux vfuel fuel r4).map fun p => ((k, c) :: p.1, p.2)
    | '}' :: r4 => some ([(k, c)], r4)
    | _ => none

/-- `JSON.parse` restricted to the catalog document shape: the top-level
object of category entries, rejecting trailing garbage.  The fuel passed to
the element loops exceeds the input length, so it never runs out. -/
def parseCatalog (s : String) : Option Catalog := do
  let r ← expectTok '{' s.data
  match expectTok '}' r with
  | some r2 => if skipWs r2 = [] then some [] else none
  | none => do
      let (cat, rest) ← parseEntriesAux (s.data.length + 1) (s.data.length + 1) r
      if skipWs rest = [] then some cat else none

/-- What the store file can look like to `fs.readFile`. -/
inductive DiskState
  | absent
  | unreadable
  | content (text : String)
deriving Repr, DecidableEq

/-- `readVideos` (identical in all revisions, e.g. server.js lines 14-22,
part_001 lines 16-24): read and `JSON.parse` the file, and on ANY failure
(missing file, I/O error, unparsable content) log and return the empty
object `\x7b\x7d`; the `try`/`catch` means no error ever reaches the
caller, which this total function embeds. -/
def readVideos : DiskState → Catalog
  | .absent => []
  | .unreadable => []
  | .content t => (parseCatalog t).getD []

/-- `writeVideos` (server.js lines 25-31, part_001 lines 26-32): overwrite
the file with `JSON.stringify(videos, null, 2)`. -/
def writeVideos (c : Catalog) : DiskState :=
  .content (serializeCatalog c)

/-! ### Association-list (JS object) lemmas -/

theorem objGet_objSet_self {α : Type} (l : List (String × α)) (k : String) (v : α) :
    objGet (objSet l k v) k = some v := by
  induction l with
  | nil => simp [objSet, objGet]
  | cons e rest ih =>
      by_cases h : e.1 = k
      · simp [objSet, h, objGet]
      · simp [objSet, h, objGet, ih]

theorem objGet_objSet_other {α : Type} (l : List (String × α)) (k m : String) (v : α)
    (h : m ≠ k) : objGet (objSet l k v) m = objGet l m := by
  have hkm : k ≠ m := Ne.symm h
  induction l with
  | nil => simp [objSet, objGet, hkm]
  | cons e rest ih =>
      by_cases he : e.1 = k
      · rw [objSet, if_pos he, objGet, objGet, if_neg hkm, if_neg (he ▸ hkm)]
      · rw [objSet, if_neg he, objGet, objGet]
        by_cases hm : e.1 = m
        · rw [if_pos hm, if_pos hm]
        · rw [if_neg hm, if_neg hm, ih]

theorem objGet_objDelete_other {α : Type} (l : List (String × α)) (k m : String)
    (h : m ≠ k) : objGet (objDelete l k) m = objGet l m := by
  induction l with
  | nil => simp [objDelete]
  | cons e rest ih =>
      by_cases he : e.1 = k
      · rw [objDelete, if_pos he, objGet, if_neg (by rw [he]; exact Ne.symm h)]
      · rw [objDelete, if_neg he, objGet, objGet]
        by_cases hm : e.1 = m
        · rw [if_pos hm, if_pos hm]
        · rw [if_neg hm, if_neg hm, ih]

theorem objGet_eq_none_of_not_mem_keys {α : Type} (l : List (String × α)) (k : String)
    (h : k ∉ objKeys l) : objGet l k = none := by
  induction l with
  | nil => simp [objGet]
  | cons e rest ih =>
      simp only [objKeys, List.map_cons, List.mem_cons, not_or] at h
      rw [objGet, if_neg (fun hh => h.1 (hh.symm))]
      exact ih (by simpa [objKeys] using h.2)

theorem objKeys_objDelete_of_nodup {α : Type} (l : List (String × α)) (k : String)
    (hnd : (objKeys l).Nodup) : objKeys (objDelete l k) = (objKeys l).filter (· ≠ k) := by
  induction l with
  | nil => simp [objDelete, objKeys]
  | cons e rest ih =>
      simp only [objKeys, List.map_cons, List.nodup_cons] at hnd
      by_cases he : e.1 = k
      · rw [objDelete, if_pos he]
        show objKeys rest = (e.1 :: List.map Prod.fst rest).filter (· ≠ k)
        rw [List.filter_cons_of_neg (by simp [he])]
        rw [List.filter_eq_self.2 (by
          intro x hx
          simp only [decide_eq_true_eq]
          intro hxk
          refine hnd.1 ?_
          rw [he, ← hxk]
          exact hx)]
        rfl
      · rw [objDelete, if_neg he]
        show e.1 :: objKeys (objDelete rest k) =
          (e.1 :: List.map Prod.fst rest).filter (· ≠ k)
        rw [List.filter_cons_of_pos (by simp [he]), ih hnd.2]
        rfl

theorem not_mem_objKeys_objDelete {α : Type} (l : List (String × α)) (k : String)
    (hnd : (objKeys l).Nodup) : k ∉ objKeys (objDelete l k) := by
  rw [objKeys_objDelete_of_nodup l k hnd]
  intro hmem
  have := List.of_mem_filter hmem
  simp at this

theorem objGet_objDelete_self {α : Type} (l : List (String × α)) (k : String)
    (hnd : (objKeys l).Nodup) : objGet (objDelete l k) k = none := by
  apply objGet_eq_none_of_not_mem_keys
  exact not_mem_objKeys_objDelete l k hnd

theorem objGet_mem_keys {α : Type} (l : List (String × α)) (k : String) (v : α)
    (h : objGet l k = some v) : k ∈ objKeys l := by
  induction l with
  | nil => simp [objGet] at h
  | cons e rest ih =>
      rw [objGet] at h
      by_cases he : e.1 = k
      · rw [objKeys, List.map_cons]
        exact he ▸ List.mem_cons_self e.1 _
      · rw [if_neg he] at h
        rw [objKeys, List.map_cons]
        exact List.mem_cons_of_mem _ (ih h)

theorem count_objKeys_unchanged_of_nodup {α : Type} (l : List (String × α)) (k : String)
    (hnd : (objKeys l).Nodup) (hmem : k ∈ objKeys l) :
    (objKeys l).count k = 1 := by
  exact List.count_eq_one_of_mem hnd hmem

/-! ### Whitespace and token lemmas for the JSON reader -/

theorem skipWs_cons_ws (c : Char) (h : isWsChar c = true) (l : List Char) :
    skipWs (c :: l) = skipWs l := by
  simp [skipWs, h]

theorem skipWs_nonWs {c : Char} (h : isWsChar c = false) (l : List Char) :
    skipWs (c :: l) = c :: l := by
  simp [skipWs, h]

theorem skipWs_spaces (n : Nat) (l : List Char) :
    skipWs (spacesC n ++ l) = skipWs l := by
  induction n with
  | zero => rw [spacesC, List.replicate_zero, List.nil_append]
  | succ n ih =>
      rw [spacesC, List.replicate_succ, List.cons_append,
        skipWs_cons_ws ' ' (by decide)]
      exact ih

theorem skipWs_nl (l : List Char) : skipWs ('\n' :: l) = skipWs l :=
  skipWs_cons_ws '\n' (by decide) l

theorem expectTok_ws1 (t c : Char) (h : isWsChar c = true) (l : List Char) :
    expectTok t (c :: l) = expectTok t l := by
  rw [expectTok, expectTok, skipWs_cons_ws c h]

theorem expectTok_spaces (t : Char) (n : Nat) (l : List Char) :
    expectTok t (spacesC n ++ l) = expectTok t l := by
  rw [expectTok, expectTok, skipWs_spaces]

theorem expectTok_exact {t : Char} (h : isWsChar t = false) (l : List Char) :
    expectTok t (t :: l) = some l := by
  rw [expectTok, skipWs_nonWs h]
  simp

/-! ### String-escape round trip -/

theorem hexVal_hexDigitChar (n : Nat) (h : n < 16) :
    hexVal (hexDigitChar n) = some n := by
  interval_cases n <;> rfl

theorem lexStrAux_quote (l : List Char) : lexStrAux ('"' :: l) = some ([], l) := by
  conv_lhs => unfold lexStrAux
  simp

theorem lexStrAux_plain {c : Char} (h1 : c ≠ '"') (h2 : c ≠ '\\') (l : List Char) :
    lexStrAux (c :: l) = (lexStrAux l).map fun p => (c :: p.1, p.2) := by
  conv_lhs => unfold lexStrAux
  simp [h1, h2]

theorem lexStrAux_escQuote (l : List Char) :
    lexStrAux ('\\' :: '"' :: l) = (lexStrAux l).map fun p => ('"' :: p.1, p.2) := by
  conv_lhs => unfold lexStrAux
  simp

theorem lexStrAux_escBackslash (l : List Char) :
    lexStrAux ('\\' :: '\\' :: l) = (lexStrAux l).map fun p => ('\\' :: p.1, p.2) := by
  conv_lhs => unfold lexStrAux
  simp

theorem lexStrAux_escB (l : List Char) :
    lexStrAux ('\\' :: 'b' :: l) =
      (lexStrAux l).map fun p => (Char.ofNat 8 :: p.1, p.2) := by
  conv_lhs => unfold lexStrAux
  simp

theorem lexStrAux_escT (l : List Char) :
    lexStrAux ('\\' :: 't' :: l) =
      (lexStrAux l).map fun p => (Char.ofNat 9 :: p.1, p.2) := by
  conv_lhs => unfold lexStrAux
  simp

theorem lexStrAux_escN (l : List Char) :
    lexStrAux ('\\' :: 'n' :: l) =
      (lexStrAux l).map fun p => (Char.ofNat 10 :: p.1, p.2) := by
  conv_lhs => unfold lexStrAux
  simp

theorem lexStrAux_escF (l : List Char) :
    lexStrAux ('\\' :: 'f' :: l) =
      (lexStrAux l).map fun p => (Char.ofNat 12 :: p.1, p.2) := by
  conv_lhs => unfold lexStrAux
  simp

theorem lexStrAux_escR (l : List Char) :
    lexStrAux ('\\' :: 'r' :: l) =
      (lexStrAux l).map fun p => (Char.ofNat 13 :: p.1, p.2) := by
  conv_lhs => unfold lexStrAux
  simp

theorem lexStrAux_escU (h1 h2 h3 h4 : Char) (a b x d : Nat) (l : List Char)
    (e1 : hexVal h1 = some a) (e2 : hexVal h2 = some b)
    (e3 : hexVal h3 = some x) (e4 : hexVal h4 = some d) :
    lexStrAux ('\\' :: 'u' :: h1 :: h2 :: h3 :: h4 :: l) =
      (lexStrAux l).map fun p =>
        (Char.ofNat (((a * 16 + b) * 16 + x) * 16 + d) :: p.1, p.2) := by
  conv_lhs => unfold lexStrAux
  simp [e1, e2, e3, e4]

theorem lexStrAux_esc (cs : List Char) (rest : List Char) :
    lexStrAux (cs.flatMap escChar ++ '"' :: rest) = some (cs, rest) := by
  induction cs with
  | nil =>
      rw [List.flatMap_nil, List.nil_append, lexStrAux_quote]
  | cons c cs ih =>
      rw [List.flatMap_cons, List.append_assoc]
      by_cases h1 : c = '"'
      · subst h1
        rw [escChar, if_pos rfl]
        simp [lexStrAux_escQuote, ih]
      · by_cases h2 : c = '\\'
        · subst h2
          rw [escChar, if_neg (by decide), if_pos rfl]
          simp [lexStrAux_escBackslash, ih]
        · by_cases h3 : c = Char.ofNat 8
          · subst h3
            rw [escChar, if_neg (by decide), if_neg (by decide), if_pos rfl]
            simp [lexStrAux_escB, ih]
          · by_cases h4 : c = Char.ofNat 9
            · subst h4
              rw [escChar, if_neg (by decide), if_neg (by decide),
                if_neg (by decide), if_pos rfl]
              simp [lexStrAux_escT, ih]
            · by_cases h5 : c = Char.ofNat 10
              · subst h5
                rw [escChar, if_neg (by decide), if_neg (by decide),
                  if_neg (by decide), if_neg (by decide), if_pos rfl]
                simp [lexStrAux_escN, ih]
              · by_cases h6 : c = Char.ofNat 12
                · subst h6
                  rw [escChar, if_neg (by decide), if_neg (by decide),
                    if_neg (by decide), if_neg (by decide), if_neg (by decide),
                    if_pos rfl]
                  simp [lexStrAux_escF, ih]
                · by_cases h7 : c = Char.ofNat 13
                  · subst h7
                    rw [escChar, if_neg (by decide), if_neg (by decide),
                      if_neg (by decide), if_neg (by decide), if_neg (by decide),
                      if_neg (by decide), if_pos rfl]
                    simp [lexStrAux_escR, ih]
                  · by_cases h8 : c.toNat < 32
                    · rw [escChar, if_neg h1, if_neg h2, if_neg h3, if_neg h4,
                        if_neg h5, if_neg h6, if_neg h7, if_pos h8]
                      rw [List.cons_append, List.cons_append, List.cons_append,
                        List.cons_append, List.cons_append, List.cons_append,
                        List.nil_append]
                      rw [lexStrAux_escU '0' '0' (hexDigitChar (c.toNat / 16))
                        (hexDigitChar (c.toNat % 16)) 0 0 (c.toNat / 16)
                        (c.toNat % 16) _ rfl rfl
                        (hexVal_hexDigitChar _ (by omega))
                        (hexVal_hexDigitChar _ (Nat.mod_lt _ (by norm_num)))]
                      rw [ih]
                      have harith : ((0 * 16 + 0) * 16 + c.toNat / 16) * 16 +
                          c.toNat % 16 = c.toNat := by omega
                      rw [harith, Char.ofNat_toNat]
                      rfl
                    · rw [escChar, if_neg h1, if_neg h2, if_neg h3, if_neg h4,
                        if_neg h5, if_neg h6, if_neg h7, if_neg h8]
                      rw [List.cons_append, List.nil_append,
                        lexStrAux_plain h1 h2, ih]
                      rfl

theorem string_mk_data (s : String) : String.mk s.data = s := by
  obtain ⟨l⟩ := s
  rfl

theorem parseStrLit_quote (s : String) (rest : List Char) :
    parseStrLit (quoteC s ++ rest) = some (s, rest) := by
  rw [quoteC, List.cons_append, List.append_assoc, List.cons_append,
    List.nil_append]
  rw [parseStrLit, expectTok_exact (by decide)]
  simp [lexStrAux_esc, string_mk_data]

theorem parseStrLit_ws1 (c : Char) (h : isWsChar c = true) (l : List Char) :
    parseStrLit (c :: l) = parseStrLit l := by
  rw [parseStrLit, parseStrLit, expectTok_ws1 _ c h]

theorem parseStrLit_spaces (n : Nat) (l : List Char) :
    parseStrLit (spacesC n ++ l) = parseStrLit l := by
  rw [parseStrLit, parseStrLit, expectTok_spaces]

theorem parseStrLit_sp (l : List Char) : parseStrLit (' ' :: l) = parseStrLit l :=
  parseStrLit_ws1 ' ' (by decide) l

theorem parseStrLit_nl (l : List Char) : parseStrLit ('\n' :: l) = parseStrLit l :=
  parseStrLit_ws1 '\n' (by decide) l

theorem expectTok_sp (t : Char) (l : List Char) :
    expectTok t (' ' :: l) = expectTok t l := expectTok_ws1 t ' ' (by decide) l

theorem expectTok_nl (t : Char) (l : List Char) :
    expectTok t ('\n' :: l) = expectTok t l := expectTok_ws1 t '\n' (by decide) l

/-! ### Field-list, video, array, category and entry round trips -/

theorem parseFieldsAux_ws1 (c : Char) (h : isWsChar c = true) (fuel : Nat)
    (l : List Char) : parseFieldsAux fuel (c :: l) = parseFieldsAux fuel l := by
  cases fuel with
  | zero => rfl
  | succ f => rw [parseFieldsAux, parseFieldsAux, parseStrLit_ws1 c h]

theorem parseFieldsAux_ser (ind m : Nat) (fl : List (String × String)) :
    ∀ (rest : List Char) (fuel : Nat), fl ≠ [] → fl.length ≤ fuel →
      parseFieldsAux fuel
        (serFieldsSep ind fl ++ '\n' :: (spacesC m ++ '}' :: rest)) =
      some (fl, rest) := by
  induction fl with
  | nil => intro rest fuel h _; exact absurd rfl h
  | cons f fl ih =>
      intro rest fuel _ hlen
      cases fuel with
      | zero => exact absurd hlen (by simp)
      | succ fuel =>
          cases fl with
          | nil =>
              rw [serFieldsSep, serStrField, parseFieldsAux]
              simp only [List.append_assoc, List.cons_append]
              rw [parseStrLit_spaces, parseStrLit_quote]
              simp only [Option.bind_eq_bind, Option.some_bind]
              rw [expectTok_exact (t := ':') (by decide)]
              simp only [Option.some_bind]
              rw [parseStrLit_sp, parseStrLit_quote]
              simp only [Option.some_bind]
              rw [skipWs_nl, skipWs_spaces, skipWs_nonWs (by decide)]
              simp
          | cons g fl' =>
              rw [serFieldsSep, serStrField, parseFieldsAux]
              simp only [List.append_assoc, List.cons_append]
              rw [parseStrLit_spaces, parseStrLit_quote]
              simp only [Option.bind_eq_bind, Option.some_bind]
              rw [expectTok_exact (t := ':') (by decide)]
              simp only [Option.some_bind]
              rw [parseStrLit_sp, parseStrLit_quote]
              simp only [Option.some_bind]
              rw [skipWs_nonWs (by decide)]
              show Option.map (fun p => ((f.1, f.2) :: p.1, p.2))
                  (parseFieldsAux fuel ('\n' ::
                    (serFieldsSep ind (g :: fl') ++ '\n' :: (spacesC m ++ '}' :: rest)))) =
                some (f :: g :: fl', rest)
              rw [parseFieldsAux_ws1 '\n' (by decide)]
              rw [ih rest fuel (by simp) (by simpa using Nat.le_of_succ_le_succ hlen)]
              simp

theorem videoFields_ne_nil (v : Video) : videoFields v ≠ [] := by
  obtain ⟨t, d, u, th⟩ := v
  cases t <;> simp [videoFields]

theorem videoFields_len_le (v : Video) : (videoFields v).length ≤ 4 := by
  obtain ⟨t, d, u, th⟩ := v
  cases t <;> cases u <;> cases th <;> simp [videoFields]

theorem objGet_videoFields (v : Video) :
    objGet (videoFields v) "description" = some v.description ∧
    objGet (videoFields v) "title" = v.title ∧
    objGet (videoFields v) "url" = v.url ∧
    objGet (videoFields v) "thumbnail" = v.thumbnail := by
  obtain ⟨t, d, u, th⟩ := v
  cases t <;> cases u <;> cases th <;> simp [videoFields, objGet]

theorem parseVideo_ws1 (c : Char) (h : isWsChar c = true) (l : List Char) :
    parseVideo (c :: l) = parseVideo l := by
  rw [parseVideo, parseVideo, expectTok_ws1 _ c h]

theorem parseVideo_spaces (n : Nat) (l : List Char) :
    parseVideo (spacesC n ++ l) = parseVideo l := by
  rw [parseVideo, parseVideo, expectTok_spaces]

theorem parseVideo_ser (ind : Nat) (v : Video) (rest : List Char) :
    parseVideo (serVideo ind v ++ rest) = some (v, rest) := by
  rw [serVideo]
  simp only [List.cons_append, List.append_assoc, List.nil_append]
  rw [parseVideo, expectTok_exact (by decide)]
  simp only [Option.bind_eq_bind, Option.some_bind]
  rw [parseFieldsAux_ws1 '\n' (by decide)]
  rw [parseFieldsAux_ser (ind + 2) ind (videoFields v) rest 4 (videoFields_ne_nil v)
    (videoFields_len_le v)]
  simp only [Option.some_bind]
  rw [(objGet_videoFields v).1]
  simp only [Option.some_bind]
  rw [(objGet_videoFields v).2.1, (objGet_videoFields v).2.2.1,
    (objGet_videoFields v).2.2.2]
  rfl

theorem parseVideosAux_ws1 (c : Char) (h : isWsChar c = true) (fuel : Nat)
    (l : List Char) : parseVideosAux fuel (c :: l) = parseVideosAux fuel l := by
  cases fuel with
  | zero => rfl
  | succ f => rw [parseVideosAux, parseVideosAux, parseVideo_ws1 c h]

theorem parseVideosAux_ser (ind m : Nat) (vs : List Video) :
    ∀ (rest : List Char) (fuel : Nat), vs ≠ [] → vs.length ≤ fuel →
      parseVideosAux fuel
        (serVideosSep ind vs ++ '\n' :: (spacesC m ++ ']' :: rest)) =
      some (vs, rest) := by
  induction vs with
  | nil => intro rest fuel h _; exact absurd rfl h
  | cons v vs ih =>
      intro rest fuel _ hlen
      cases fuel with
      | zero => exact absurd hlen (by simp)
      | succ fuel =>
          cases vs with
          | nil =>
              rw [serVideosSep, parseVideosAux]
              simp only [List.append_assoc, List.cons_append]
              rw [parseVideo_spaces, parseVideo_ser]
              simp only [Option.bind_eq_bind, Option.some_bind]
              rw [skipWs_nl, skipWs_spaces, skipWs_nonWs (by decide)]
              simp
          | cons w vs' =>
              rw [serVideosSep, parseVideosAux]
              simp only [List.append_assoc, List.cons_append]
              rw [parseVideo_spaces, parseVideo_ser]
              simp only [Option.bind_eq_bind, Option.some_bind]
              rw [skipWs_nonWs (by decide)]
              show Option.map (fun p => (v :: p.1, p.2))
                  (parseVideosAux fuel ('\n' ::
                    (serVideosSep ind (w :: vs') ++ '\n' :: (spacesC m ++ ']' :: rest)))) =
                some (v :: w :: vs', rest)
              rw [parseVideosAux_ws1 '\n' (by decide)]
              rw [ih rest fuel (by simp) (by simpa using Nat.le_of_succ_le_succ hlen)]
              rfl

theorem skipWs_serVideosSep (ind : Nat) (v : Video) (vs : List Video)
    (l : List Char) :
    ∃ t, skipWs (serVideosSep ind (v :: vs) ++ l) = '{' :: t := by
  cases vs <;>
    · rw [serVideosSep, serVideo]
      simp only [List.cons_append, List.append_assoc]
      rw [skipWs_spaces, skipWs_nonWs (by decide)]
      exact ⟨_, rfl⟩

theorem parseVideoArr_ws1 (c : Char) (h : isWsChar c = true) (fuel : Nat)
    (l : List Char) : parseVideoArr fuel (c :: l) = parseVideoArr fuel l := by
  rw [parseVideoArr, parseVideoArr, expectTok_ws1 _ c h]

theorem parseVideoArr_ser (ind : Nat) (vs : List Video) (rest : List Char)
    (fuel : Nat) (hf : vs.length ≤ fuel) :
    parseVideoArr fuel (serVideoArr ind vs ++ rest) = some (vs, rest) := by
  cases vs with
  | nil =>
      rw [serVideoArr]
      simp only [List.cons_append, List.nil_append]
      rw [parseVideoArr, expectTok_exact (by decide)]
      simp only [Option.bind_eq_bind, Option.some_bind]
      rw [skipWs_nonWs (by decide)]
      rfl
  | cons v vs' =>
      rw [serVideoArr]
      simp only [List.cons_append, List.append_assoc, List.nil_append]
      rw [parseVideoArr, expectTok_exact (by decide)]
      simp only [Option.bind_eq_bind, Option.some_bind]
      obtain ⟨t, ht⟩ := skipWs_serVideosSep (ind + 2) v vs'
        ('\n' :: (spacesC ind ++ (']' :: rest)))
      have hsk : skipWs ('\n' :: (serVideosSep (ind + 2) (v :: vs') ++
          '\n' :: (spacesC ind ++ (']' :: rest)))) = '{' :: t := by
        rw [skipWs_nl]; exact ht
      rw [hsk]
      show parseVideosAux fuel ('\n' :: (serVideosSep (ind + 2) (v :: vs') ++
          '\n' :: (spacesC ind ++ (']' :: rest)))) = some (v :: vs', rest)
      rw [parseVideosAux_ws1 '\n' (by decide)]
      exact parseVideosAux_ser (ind + 2) ind (v :: vs') rest fuel (by simp) hf

theorem parseCategory_ws1 (c : Char) (h : isWsChar c = true) (fuel : Nat)
    (l : List Char) : parseCategory fuel (c :: l) = parseCategory fuel l := by
  rw [parseCategory, parseCategory, expectTok_ws1 _ c h]

theorem parseCategory_ser (ind : Nat) (c : Category) (rest : List Char)
    (fuel : Nat) (hf : c.videos.length ≤ fuel) :
    parseCategory fuel (serCategory ind c ++ rest) = some (c, rest) := by
  obtain ⟨thumb, vs⟩ := c
  rw [serCategory]
  simp only [List.cons_append, List.append_assoc, List.nil_append]
  rw [parseCategory, expectTok_exact (by decide)]
  simp only [Option.bind_eq_bind, Option.some_bind]
  rw [parseStrLit_nl, parseStrLit_spaces, parseStrLit_quote]
  simp only [Option.some_bind, if_true]
  rw [expectTok_exact (t := ':') (by decide)]
  simp only [Option.some_bind]
  rw [parseStrLit_sp, parseStrLit_quote]
  simp only [Option.some_bind]
  rw [expectTok_exact (t := ',') (by decide)]
  simp only [Option.some_bind]
  rw [parseStrLit_nl, parseStrLit_spaces, parseStrLit_quote]
  simp only [Option.some_bind, if_true]
  rw [expectTok_exact (t := ':') (by decide)]
  simp only [Option.some_bind]
  rw [parseVideoArr_ws1 ' ' (by decide)]
  rw [parseVideoArr_ser (ind + 2) vs _ fuel hf]
  simp only [Option.some_bind]
  rw [expectTok_nl, expectTok_spaces, expectTok_exact (t := '}') (by decide)]
  simp only [Option.some_bind]
  rfl

theorem parseEntriesAux_ws1 (c : Char) (h : isWsChar c = true) (vfuel fuel : Nat)
    (l : List Char) :
    parseEntriesAux vfuel fuel (c :: l) = parseEntriesAux vfuel fuel l := by
  cases fuel with
  | zero => rfl
  | succ f => rw [parseEntriesAux, parseEntriesAux, parseStrLit_ws1 c h]

theorem parseEntriesAux_ser (ind m vfuel : Nat) (es : Catalog) :
    ∀ (rest : List Char) (fuel : Nat), es ≠ [] → es.length ≤ fuel →
      (∀ e ∈ es, e.2.videos.length ≤ vfuel) →
      parseEntriesAux vfuel fuel
        (serEntriesSep ind es ++ '\n' :: (spacesC m ++ '}' :: rest)) =
      some (es, rest) := by
  induction es with
  | nil => intro rest fuel h _ _; exact absurd rfl h
  | cons e es ih =>
      intro rest fuel _ hlen hv
      cases fuel with
      | zero => exact absurd hlen (by simp)
      | succ fuel =>
          cases es with
          | nil =>
              rw [serEntriesSep, parseEntriesAux]
              simp only [List.append_assoc, List.cons_append]
              rw [parseStrLit_spaces, parseStrLit_quote]
              simp only [Option.bind_eq_bind, Option.some_bind]
              rw [expectTok_exact (t := ':') (by decide)]
              simp only [Option.some_bind]
              rw [parseCategory_ws1 ' ' (by decide)]
              rw [parseCategory_ser ind e.2 _ vfuel (hv e (by simp))]
              simp only [Option.some_bind]
              rw [skipWs_nl, skipWs_spaces, skipWs_nonWs (by decide)]
              simp
          | cons f es' =>
              rw [serEntriesSep, parseEntriesAux]
              simp only [List.append_assoc, List.cons_append]
              rw [parseStrLit_spaces, parseStrLit_quote]
              simp only [Option.bind_eq_bind, Option.some_bind]
              rw [expectTok_exact (t := ':') (by decide)]
              simp only [Option.some_bind]
              rw [parseCategory_ws1 ' ' (by decide)]
              rw [parseCategory_ser ind e.2 _ vfuel (hv e (by simp))]
              simp only [Option.some_bind]
              rw [skipWs_nonWs (by decide)]
              show Option.map (fun p => ((e.1, e.2) :: p.1, p.2))
                  (parseEntriesAux vfuel fuel ('\n' ::
                    (serEntriesSep ind (f :: es') ++ '\n' :: (spacesC m ++ '}' :: rest)))) =
                some (e :: f :: es', rest)
              rw [parseEntriesAux_ws1 '\n' (by decide)]
              rw [ih rest fuel (by simp) (by simpa using Nat.le_of_succ_le_succ hlen)
                (fun x hx => hv x (List.mem_cons_of_mem _ hx))]
              simp

theorem quoteC_len_pos (s : String) : 1 ≤ (quoteC s).length := by
  rw [quoteC]; simp

theorem serVideo_len_pos (ind : Nat) (v : Video) : 1 ≤ (serVideo ind v).length := by
  rw [serVideo]; simp

theorem serVideosSep_len (ind : Nat) :
    ∀ vs : List Video, vs.length ≤ (serVideosSep ind vs).length := by
  intro vs
  induction vs with
  | nil => simp [serVideosSep]
  | cons v vs ih =>
      cases vs with
      | nil =>
          rw [serVideosSep]
          have h1 := serVideo_len_pos ind v
          simp only [List.length_append, List.length_cons, List.length_nil]
          omega
      | cons w vs' =>
          rw [serVideosSep]
          have h1 := serVideo_len_pos ind v
          simp only [List.length_append, List.length_cons] at ih ⊢
          omega

theorem serVideoArr_len (ind : Nat) (vs : List Video) :
    vs.length ≤ (serVideoArr ind vs).length := by
  cases vs with
  | nil => simp [serVideoArr]
  | cons v vs' =>
      rw [serVideoArr]
      have := serVideosSep_len (ind + 2) (v :: vs')
      simp only [List.length_cons, List.length_append] at *
      omega

theorem serCategory_len (ind : Nat) (c : Category) :
    c.videos.length ≤ (serCategory ind c).length := by
  rw [serCategory]
  have := serVideoArr_len (ind + 2) c.videos
  simp only [List.length_cons, List.length_append] at *
  omega

theorem serEntriesSep_len_entries (ind : Nat) :
    ∀ es : Catalog, es.length ≤ (serEntriesSep ind es).length := by
  intro es
  induction es with
  | nil => simp [serEntriesSep]
  | cons e es ih =>
      cases es with
      | nil =>
          rw [serEntriesSep]
          have h1 := quoteC_len_pos e.1
          simp only [List.length_append, List.length_cons, List.length_nil]
          omega
      | cons f es' =>
          rw [serEntriesSep]
          have h1 := quoteC_len_pos e.1
          simp only [List.length_append, List.length_cons] at ih ⊢
          omega

theorem serEntriesSep_len_videos (ind : Nat) :
    ∀ es : Catalog, ∀ e ∈ es, e.2.videos.length ≤ (serEntriesSep ind es).length := by
  intro es
  induction es with
  | nil => intro e he; simp at he
  | cons e es ih =>
      intro x hx
      rcases List.mem_cons.1 hx with hx | hx
      · subst hx
        cases es with
        | nil =>
            rw [serEntriesSep]
            have h1 := serCategory_len ind x.2
            simp only [List.length_append, List.length_cons] at *
            omega
        | cons f es' =>
            rw [serEntriesSep]
            have h1 := serCategory_len ind x.2
            simp only [List.length_append, List.length_cons] at *
            omega
      · cases es with
        | nil => simp at hx
        | cons f es' =>
            rw [serEntriesSep]
            have h1 := ih x hx
            simp only [List.length_append, List.length_cons] at *
            omega

theorem skipWs_serEntriesSep (ind : Nat) (e : String × Category) (es : Catalog)
    (l : List Char) :
    ∃ t, skipWs (serEntriesSep ind (e :: es) ++ l) = '"' :: t := by
  cases es <;>
    · rw [serEntriesSep, quoteC]
      simp only [List.cons_append, List.append_assoc]
      rw [skipWs_spaces, skipWs_nonWs (by decide)]
      exact ⟨_, rfl⟩

/-- Round trip at the document level: parsing the serialization of any
catalog recovers it exactly. -/
theorem parseCatalog_serializeCatalog (c : Catalog) :
    parseCatalog (serializeCatalog c) = some c := by
  cases c with
  | nil => rfl
  | cons e es =>
      have hdata : (serializeCatalog (e :: es)).data = serCatalogChars (e :: es) := rfl
      rw [parseCatalog, hdata, serCatalogChars]
      rw [expectTok_exact (by decide)]
      simp only [Option.bind_eq_bind, Option.some_bind]
      obtain ⟨t, ht⟩ := skipWs_serEntriesSep 2 e es ('\n' :: ['}'])
      have hnone : expectTok '}'
          ('\n' :: (serEntriesSep 2 (e :: es) ++ '\n' :: ['}'])) = none := by
        rw [expectTok, skipWs_nl, ht]
        rfl
      rw [hnone]
      have hlen1 := serEntriesSep_len_entries 2 (e :: es)
      simp only [List.length_cons] at hlen1
      have hlen2 := serEntriesSep_len_videos 2 (e :: es)
      have hform : ('\n' :: (serEntriesSep 2 (e :: es) ++ '\n' :: ['}']) : List Char) =
          '\n' :: (serEntriesSep 2 (e :: es) ++ '\n' :: (spacesC 0 ++ '}' :: [])) := rfl
      rw [hform, parseEntriesAux_ws1 '\n' (by decide)]
      rw [parseEntriesAux_ser 2 0 _ (e :: es)]
      · simp only [Option.some_bind]
        rfl
      · simp
      · simp only [List.length_cons, List.length_append, spacesC,
          List.length_replicate, List.length_nil]
        omega
      · intro x hx
        have := hlen2 x hx
        simp only [List.length_cons, List.length_append, spacesC,
          List.length_replicate, List.length_nil] at this ⊢
        omega

/-- The store round trip: what `writeVideos` persists, `readVideos` reads
back unchanged. -/
theorem readVideos_writeVideos (c : Catalog) :
    readVideos (writeVideos c) = c := by
  rw [writeVideos, readVideos, parseCatalog_serializeCatalog]
  rfl

/-! ### Further association-list lemmas for the claim theorems -/

theorem objGet_some_mem {α : Type} (l : List (String × α)) (k : String) (v : α)
    (h : objGet l k = some v) : (k, v) ∈ l := by
  induction l with
  | nil => simp [objGet] at h
  | cons e rest ih =>
      rw [objGet] at h
      by_cases he : e.1 = k
      · rw [if_pos he] at h
        have hev : e = (k, v) := by
          obtain ⟨e1, e2⟩ := e
          simp only at he
          simp only [Option.some.injEq] at h
          rw [he, h]
        rw [← hev]
        exact List.mem_cons_self e rest
      · rw [if_neg he] at h
        exact List.mem_cons_of_mem _ (ih h)

theorem mem_objGet_of_nodup {α : Type} (l : List (String × α)) (p : String × α)
    (hnd : (objKeys l).Nodup) (hp : p ∈ l) : objGet l p.1 = some p.2 := by
  induction l with
  | nil => simp at hp
  | cons e rest ih =>
      simp only [objKeys, List.map_cons, List.nodup_cons] at hnd
      rcases List.mem_cons.1 hp with hp | hp
      · subst hp
        rw [objGet, if_pos rfl]
      · rw [objGet]
        by_cases he : e.1 = p.1
        · exact absurd (he ▸ List.mem_map_of_mem Prod.fst hp) hnd.1
        · rw [if_neg he]
          exact ih hnd.2 hp

theorem objKeys_objSet_of_get {α : Type} (l : List (String × α)) (k : String)
    (w v : α) (h : objGet l k = some w) : objKeys (objSet l k v) = objKeys l := by
  induction l with
  | nil => simp [objGet] at h
  | cons e rest ih =>
      rw [objGet] at h
      by_cases he : e.1 = k
      · rw [objSet, if_pos he, objKeys, objKeys, List.map_cons, List.map_cons]
        simp [he]
      · rw [if_neg he] at h
        rw [objSet, if_neg he]
        simp only [objKeys, List.map_cons]
        have hih := ih h
        simp only [objKeys] at hih
        rw [hih]

theorem fst_ne_of_mem_objDelete {α : Type} (l : List (String × α)) (k : String)
    (hnd : (objKeys l).Nodup) (p : String × α) (hp : p ∈ objDelete l k) :
    p.1 ≠ k := by
  intro hh
  have hmem : p.1 ∈ objKeys (objDelete l k) := List.mem_map_of_mem Prod.fst hp
  rw [hh] at hmem
  exact not_mem_objKeys_objDelete l k hnd hmem

/-- `GET /api/videos` (all revisions): the whole catalog verbatim. -/
def getAllVideos (cat : Catalog) : Catalog := cat

/-- The catalog as persisted after a request: the one handed to
`writeVideos`, or the loaded one when the handler returned without
writing. -/
def savedOr {σ α : Type} (cat : σ) (out : HandlerOut σ α) : σ :=
  out.2.getD cat

/-! ### Concrete data used by the witnesses -/

/-- A sample stored video. -/
def demoVideo : Video :=
  { title := some "T", description := "d", url := some "U", thumbnail := none }

/-- A second sample stored video. -/
def demoVideo2 : Video :=
  { title := some "T2", description := "", url := some "U2", thumbnail := some "th" }

/-- A sample thumbnailed catalog with two categories. -/
def demoCatalog : Catalog :=
  [("music", { categoryThumbnail := "m.png", videos := [demoVideo, demoVideo2] }),
   ("news", { categoryThumbnail := "", videos := [demoVideo] })]

/-- A sample flat catalog with two categories. -/
def demoFlat : FlatCatalog :=
  [("music", [demoVideo, demoVideo2]), ("news", [demoVideo])]

/-! ### Claim theorems -/

/-- C1 (code bug in part_001): the spec requires a create-video request
missing `title` (or `url`) to be rejected with a 400 validation error,
leaving the category's video sequence unchanged.  The server.js / part_000
handler does exactly that (third conjunct), but the part_001 handler has no
`title`/`url` check at all: at the same failing input — POST to existing
category "music" with body `\x7b url: "u" \x7d` — it appends a title-less
video (the sequence grows from one to two entries) and answers 200. -/
theorem claim1_create_video_missing_title :
    (postVideo_p001 "music" ⟨none, none, some "u", none⟩
        [("music", ⟨"", [demoVideo]⟩)]).1 =
      .ok [demoVideo, ⟨none, "", some "u", none⟩] ∧
    (postVideo_p001 "music" ⟨none, none, some "u", none⟩
        [("music", ⟨"", [demoVideo]⟩)]).2 =
      some [("music", ⟨"", [demoVideo, ⟨none, "", some "u", none⟩]⟩)] ∧
    postVideo_flat "music" ⟨none, none, some "u", none⟩ [("music", [demoVideo])] =
      (.error ⟨400, "Title and URL are required"⟩, none) :=
  ⟨rfl, rfl, rfl⟩

/-- C2 counterexample: the part_001 list-by-category handler never answers
404 — for an absent category it answers 200 with the fallback
`\x7b videos: [] \x7d`, and for a present category it returns the whole
stored record rather than the `videos` sequence, refuting the claim as
stated for that revision. -/
theorem claim2_counterexample :
    getVideosByCategory_p001 "music" [] = .fallback ∧
    getVideosByCategory_p001 "music" [("music", ⟨"m", [demoVideo]⟩)] =
      .record ⟨"m", [demoVideo]⟩ := by
  decide

/-- C2 (amended): in the server.js doc2/doc3 and part_000 revisions a
list-by-category request answers 404 when the category is absent and
returns the category's video sequence otherwise; the part_001 revision
instead always answers 200 — the fallback record when the category is
absent, and the raw stored category record when it is present. -/
theorem claim2_get_videos_by_category (cat : Catalog) (fcat : FlatCatalog)
    (n : String) :
    (objGet cat n = none →
      getVideosByCategory_srv2 n cat = .error ⟨404, "Category not found"⟩ ∧
      getVideosByCategory_p001 n cat = .fallback) ∧
    (∀ c, objGet cat n = some c →
      getVideosByCategory_srv2 n cat = .ok c.videos ∧
      getVideosByCategory_p001 n cat = .record c) ∧
    (objGet fcat n = none →
      getVideosByCategory_p000 n fcat = .error ⟨404, "Category not found"⟩) ∧
    (∀ vs, objGet fcat n = some vs → getVideosByCategory_p000 n fcat = .ok vs) := by
  refine ⟨fun h => ⟨?_, ?_⟩, fun c h => ⟨?_, ?_⟩, fun h => ?_, fun vs h => ?_⟩ <;>
    simp [getVideosByCategory_srv2, getVideosByCategory_p001,
      getVideosByCategory_p000, h]

/-- Witness for C2 at an empty catalog and category "music". -/
theorem claim2_witness :
    getVideosByCategory_srv2 "music" [] = .error ⟨404, "Category not found"⟩ ∧
    getVideosByCategory_p001 "music" [] = .fallback ∧
    getVideosByCategory_p000 "music" [] = .error ⟨404, "Category not found"⟩ :=
  ⟨((claim2_get_videos_by_category [] [] "music").1 rfl).1,
   ((claim2_get_videos_by_category [] [] "music").1 rfl).2,
   (claim2_get_videos_by_category [] [] "music").2.2.1 rfl⟩

/-- C6: every failure mode of the Store's load — file absent, file
unreadable, content that does not parse — yields the empty catalog mapping;
`readVideos` is a total function into `Catalog`, so no error ever reaches
the caller. -/
theorem claim6_load_failure_empty (t : String) (hp : parseCatalog t = none) :
    readVideos .absent = [] ∧ readVideos .unreadable = [] ∧
    readVideos (.content t) = [] := by
  refine ⟨rfl, rfl, ?_⟩
  rw [readVideos, hp]
  rfl

/-- Witness for C6 at the unparsable file content "not json". -/
theorem claim6_witness :
    parseCatalog "not json" = none ∧ readVideos (.content "not json") = [] :=
  ⟨by decide, (claim6_load_failure_empty "not json" (by decide)).2.2⟩

/-- C7: the store round trip — saving any catalog with `writeVideos` and
loading with `readVideos` returns the same catalog field-for-field
(no concurrent writer exists in this sequential model); equivalently,
JSON-parsing the JSON serialization of a catalog is the identity. -/
theorem claim7_save_load_round_trip (c : Catalog) :
    readVideos (writeVideos c) = c ∧
    parseCatalog (serializeCatalog c) = some c :=
  ⟨readVideos_writeVideos c, parseCatalog_serializeCatalog c⟩

/-- C3: creating a category whose (non-empty) name already exists answers
the conflict error (status 400, "Category already exists") without calling
`writeVideos`, so the catalog keeps exactly one entry for the name with its
contents unchanged — in both the thumbnailed and the flat revision. -/
theorem claim3_create_category_conflict (cat : Catalog) (fcat : FlatCatalog)
    (n : String) (e : Category) (vs : List Video)
    (hn : n ≠ "") (h : objGet cat n = some e) (hnd : (objKeys cat).Nodup)
    (hf : objGet fcat n = some vs) (hfnd : (objKeys fcat).Nodup) :
    postCategory_p001 (some n) cat =
      (.error ⟨400, "Category already exists"⟩, none) ∧
    postCategory_p000 (some n) fcat =
      (.error ⟨400, "Category already exists"⟩, none) ∧
    (objKeys cat).count n = 1 ∧ objGet cat n = some e ∧
    (objKeys fcat).count n = 1 ∧ objGet fcat n = some vs := by
  have hfalsy : falsy (some n) = false := by simp [falsy, hn]
  refine ⟨?_, ?_, ?_, h, ?_, hf⟩
  · simp [postCategory_p001, hfalsy, h]
  · simp [postCategory_p000, hfalsy, hf]
  · exact count_objKeys_unchanged_of_nodup cat n hnd (objGet_mem_keys cat n e h)
  · exact count_objKeys_unchanged_of_nodup fcat n hfnd (objGet_mem_keys fcat n vs hf)

/-- Witness for C3: re-creating "music" in the demo catalogs conflicts. -/
theorem claim3_witness :
    postCategory_p001 (some "music") demoCatalog =
      (.error ⟨400, "Category already exists"⟩, none) ∧
    postCategory_p000 (some "music") demoFlat =
      (.error ⟨400, "Category already exists"⟩, none) ∧
    (objKeys demoCatalog).count "music" = 1 := by
  have h := claim3_create_category_conflict demoCatalog demoFlat "music"
    ⟨"m.png", [demoVideo, demoVideo2]⟩ [demoVideo, demoVideo2]
    (by decide) (by decide) (by decide) (by decide) (by decide)
  exact ⟨h.1, h.2.1, h.2.2.1⟩

/-- C4: deleting a video at a valid index `i` removes exactly the element
at `i` — the sequence becomes `take i ++ drop (i+1)`, elements before `i`
keep their positions, every element previously at `j > i` moves to `j - 1`,
the length drops by one — and the updated sequence is both returned and
present in the saved catalog; likewise in the flat revision. -/
theorem claim4_delete_video_at_index (cat : Catalog) (fcat : FlatCatalog)
    (n : String) (c : Category) (vs : List Video) (i : Nat)
    (hc : objGet cat n = some c) (hi : i < c.videos.length)
    (hfc : objGet fcat n = some vs) (hfi : i < vs.length) :
    deleteVideo_p001 n i cat =
      (.ok (c.videos.eraseIdx i),
       some (objSet cat n ⟨c.categoryThumbnail, c.videos.eraseIdx i⟩)) ∧
    (c.videos.eraseIdx i).length = c.videos.length - 1 ∧
    c.videos.eraseIdx i = c.videos.take i ++ c.videos.drop (i + 1) ∧
    (∀ j, j < i → (c.videos.eraseIdx i)[j]? = c.videos[j]?) ∧
    (∀ j, i < j → (c.videos.eraseIdx i)[j - 1]? = c.videos[j]?) ∧
    objGet (objSet cat n ⟨c.categoryThumbnail, c.videos.eraseIdx i⟩) n =
      some ⟨c.categoryThumbnail, c.videos.eraseIdx i⟩ ∧
    deleteVideo_flat n i fcat =
      (.ok (vs.eraseIdx i), some (objSet fcat n (vs.eraseIdx i))) ∧
    (vs.eraseIdx i).length = vs.length - 1 := by
  refine ⟨?_, List.length_eraseIdx_of_lt hi, List.eraseIdx_eq_take_drop_succ _ _,
    fun j hj => List.getElem?_eraseIdx_of_lt _ _ _ hj,
    fun j hj => ?_, objGet_objSet_self cat n _, ?_,
    List.length_eraseIdx_of_lt hfi⟩
  · simp [deleteVideo_p001, hc, hi]
  · rw [List.getElem?_eraseIdx_of_ge _ _ _ (by omega)]
    congr 1
    omega
  · simp [deleteVideo_flat, hfc, hfi]

/-- Witness for C4: deleting index 0 of "music" in the demo catalogs. -/
theorem claim4_witness :
    deleteVideo_p001 "music" 0 demoCatalog =
      (.ok [demoVideo2],
       some (objSet demoCatalog "music" ⟨"m.png", [demoVideo2]⟩)) ∧
    deleteVideo_flat "music" 0 demoFlat =
      (.ok [demoVideo2], some (objSet demoFlat "music" [demoVideo2])) := by
  have h := claim4_delete_video_at_index demoCatalog demoFlat "music"
    ⟨"m.png", [demoVideo, demoVideo2]⟩ [demoVideo, demoVideo2] 0
    (by decide) (by decide) (by decide) (by decide)
  exact ⟨h.1, h.2.2.2.2.2.2.1⟩

/-- C5: deleting an existing category removes its mapping entry entirely —
its name leaves the key set, lookups return nothing, list-by-category no
longer serves its record (fallback in part_001, 404 in server.js doc2/doc3
and part_000), and the list-all response carries no entry for it — and the
updated catalog is saved and its key set returned. -/
theorem claim5_delete_category (cat : Catalog) (fcat : FlatCatalog) (n : String)
    (e : Category) (vs : List Video)
    (h : objGet cat n = some e) (hnd : (objKeys cat).Nodup)
    (hf : objGet fcat n = some vs) (hfnd : (objKeys fcat).Nodup) :
    deleteCategory_p001 n cat =
      (.ok (objKeys (objDelete cat n)), some (objDelete cat n)) ∧
    n ∉ objKeys (objDelete cat n) ∧
    objGet (objDelete cat n) n = none ∧
    getVideosByCategory_p001 n (objDelete cat n) = .fallback ∧
    getVideosByCategory_srv2 n (objDelete cat n) =
      .error ⟨404, "Category not found"⟩ ∧
    (∀ p ∈ getAllVideos (objDelete cat n), p.1 ≠ n) ∧
    deleteCategory_p000 n fcat =
      (.ok (objKeys (objDelete fcat n)), some (objDelete fcat n)) ∧
    n ∉ objKeys (objDelete fcat n) ∧
    getVideosByCategory_p000 n (objDelete fcat n) =
      .error ⟨404, "Category not found"⟩ := by
  have hg : objGet (objDelete cat n) n = none := objGet_objDelete_self cat n hnd
  have hgf : objGet (objDelete fcat n) n = none := objGet_objDelete_self fcat n hfnd
  exact ⟨by simp [deleteCategory_p001, h], not_mem_objKeys_objDelete cat n hnd, hg,
    by simp [getVideosByCategory_p001, hg], by simp [getVideosByCategory_srv2, hg],
    fun p hp => fst_ne_of_mem_objDelete cat n hnd p hp,
    by simp [deleteCategory_p000, hf], not_mem_objKeys_objDelete fcat n hfnd,
    by simp [getVideosByCategory_p000, hgf]⟩

/-- Witness for C5: deleting "news" from the demo catalogs. -/
theorem claim5_witness :
    deleteCategory_p001 "news" demoCatalog =
      (.ok ["music"], some [("music", ⟨"m.png", [demoVideo, demoVideo2]⟩)]) ∧
    getVideosByCategory_p001 "news" (objDelete demoCatalog "news") = .fallback ∧
    deleteCategory_p000 "news" demoFlat =
      (.ok ["music"], some [("music", [demoVideo, demoVideo2])]) := by
  have h := claim5_delete_category demoCatalog demoFlat "news"
    ⟨"", [demoVideo]⟩ [demoVideo] (by decide) (by decide) (by decide) (by decide)
  exact ⟨h.1, h.2.2.2.1, h.2.2.2.2.2.2.1⟩

/-- C8: for an existing category and a non-empty thumbnail the update sets
the `categoryThumbnail` field, saves, and returns the thumbnail; a
subsequent list-categories request reports exactly that value for the
category.  A falsy thumbnail is rejected with the 400 validation error and
an unknown category with 404, neither writing anything. -/
theorem claim8_update_category_thumbnail (cat : Catalog) (n T : String)
    (e : Category) (h : objGet cat n = some e) (hT : T ≠ "")
    (hnd : (objKeys cat).Nodup) :
    patchCategoryThumbnail_p001 n (some T) cat =
      (.ok T, some (objSet cat n ⟨T, e.videos⟩)) ∧
    (n, T) ∈ getCategories_p001 (objSet cat n ⟨T, e.videos⟩) ∧
    (∀ p ∈ getCategories_p001 (objSet cat n ⟨T, e.videos⟩),
      p.1 = n → p.2 = T) ∧
    (∀ b, falsy b = true → patchCategoryThumbnail_p001 n b cat =
      (.error ⟨400, "Thumbnail URL is required"⟩, none)) ∧
    (∀ m, objGet cat m = none → patchCategoryThumbnail_p001 m (some T) cat =
      (.error ⟨404, "Category not found"⟩, none)) := by
  have hfalsy : falsy (some T) = false := by simp [falsy, hT]
  have hset : objGet (objSet cat n ⟨T, e.videos⟩) n = some ⟨T, e.videos⟩ :=
    objGet_objSet_self cat n _
  have hkeys : objKeys (objSet cat n ⟨T, e.videos⟩) = objKeys cat :=
    objKeys_objSet_of_get cat n e _ h
  have hnd' : (objKeys (objSet cat n ⟨T, e.videos⟩)).Nodup := by
    rw [hkeys]; exact hnd
  refine ⟨?_, ?_, ?_, ?_, ?_⟩
  · simp [patchCategoryThumbnail_p001, hfalsy, h]
  · have hmem : (n, (⟨T, e.videos⟩ : Category)) ∈ objSet cat n ⟨T, e.videos⟩ :=
      objGet_some_mem _ _ _ hset
    have := List.mem_map_of_mem
      (fun q : String × Category => (q.1, q.2.categoryThumbnail)) hmem
    simpa [getCategories_p001] using this
  · intro p hp hpn
    rw [getCategories_p001] at hp
    obtain ⟨q, hq, hqe⟩ := List.mem_map.1 hp
    have hq1 : q.1 = n := by rw [← hqe] at hpn; exact hpn
    have := mem_objGet_of_nodup _ q hnd' hq
    rw [hq1, hset] at this
    have hq2 : q.2 = ⟨T, e.videos⟩ := (Option.some_inj.1 this).symm
    rw [← hqe, hq2]
  · intro b hb
    simp [patchCategoryThumbnail_p001, hb]
  · intro m hm
    simp [patchCategoryThumbnail_p001, hfalsy, hm]

/-- Witness for C8: setting "news"'s thumbnail to "n.png". -/
theorem claim8_witness :
    patchCategoryThumbnail_p001 "news" (some "n.png") demoCatalog =
      (.ok "n.png", some (objSet demoCatalog "news" ⟨"n.png", [demoVideo]⟩)) ∧
    ("news", "n.png") ∈
      getCategories_p001 (objSet demoCatalog "news" ⟨"n.png", [demoVideo]⟩) ∧
    patchCategoryThumbnail_p001 "news" none demoCatalog =
      (.error ⟨400, "Thumbnail URL is required"⟩, none) ∧
    patchCategoryThumbnail_p001 "sports" (some "n.png") demoCatalog =
      (.error ⟨404, "Category not found"⟩, none) := by
  have h := claim8_update_category_thumbnail demoCatalog "news" "n.png"
    ⟨"", [demoVideo]⟩ (by decide) (by decide) (by decide)
  exact ⟨h.1, h.2.1, h.2.2.2.1 none rfl, h.2.2.2.2 "sports" (by decide)⟩

/-- C9 (frame property): every mutating handler addressed at one category
leaves every other category's entry unchanged between the loaded catalog
and the catalog it saves (or leaves the catalog untouched when it does not
save). -/
theorem claim9_other_categories_unchanged (cat : Catalog) (fcat : FlatCatalog)
    (n m : String) (hmn : m ≠ n) (body : VideoBody) (i : Nat)
    (t : Option String) :
    objGet (savedOr cat (postVideo_p001 n body cat)) m = objGet cat m ∧
    objGet (savedOr cat (deleteVideo_p001 n i cat)) m = objGet cat m ∧
    objGet (savedOr cat (patchVideoThumbnail_srv2 n i t cat)) m = objGet cat m ∧
    objGet (savedOr cat (postCategory_p001 (some n) cat)) m = objGet cat m ∧
    objGet (savedOr cat (patchCategoryThumbnail_p001 n t cat)) m = objGet cat m ∧
    objGet (savedOr cat (deleteCategory_p001 n cat)) m = objGet cat m ∧
    objGet (savedOr fcat (postVideo_flat n body fcat)) m = objGet fcat m ∧
    objGet (savedOr fcat (deleteVideo_flat n i fcat)) m = objGet fcat m := by
  refine ⟨?_, ?_, ?_, ?_, ?_, ?_, ?_, ?_⟩
  · cases hx : objGet cat n with
    | none => simp [postVideo_p001, savedOr, hx]
    | some c => simp [postVideo_p001, savedOr, hx,
        objGet_objSet_other _ _ _ _ hmn]
  · cases hx : objGet cat n with
    | none => simp [deleteVideo_p001, savedOr, hx]
    | some c =>
        by_cases hi : i < c.videos.length
        · simp [deleteVideo_p001, savedOr, hx, hi,
            objGet_objSet_other _ _ _ _ hmn]
        · simp [deleteVideo_p001, savedOr, hx, hi]
  · by_cases hft : falsy t = true
    · simp [patchVideoThumbnail_srv2, savedOr, hft]
    · cases hx : objGet cat n with
      | none => simp [patchVideoThumbnail_srv2, savedOr, hft, hx]
      | some c =>
          by_cases hi : i < c.videos.length
          · simp [patchVideoThumbnail_srv2, savedOr, hft, hx, hi,
              objGet_objSet_other _ _ _ _ hmn]
          · simp [patchVideoThumbnail_srv2, savedOr, hft, hx, hi]
  · by_cases hfn : falsy (some n) = true
    · simp [postCategory_p001, savedOr, hfn]
    · cases hx : objGet cat n with
      | some c => simp [postCategory_p001, savedOr, hfn, hx]
      | none => simp [postCategory_p001, savedOr, hfn, hx,
          objGet_objSet_other _ _ _ _ hmn]
  · by_cases hft : falsy t = true
    · simp [patchCategoryThumbnail_p001, savedOr, hft]
    · cases hx : objGet cat n with
      | none => simp [patchCategoryThumbnail_p001, savedOr, hft, hx]
      | some c => simp [patchCategoryThumbnail_p001, savedOr, hft, hx,
          objGet_objSet_other _ _ _ _ hmn]
  · cases hx : objGet cat n with
    | none => simp [deleteCategory_p001, savedOr, hx]
    | some c => simp [deleteCategory_p001, savedOr, hx,
        objGet_objDelete_other _ _ _ hmn]
  · by_cases hv : falsy body.title = true ∨ falsy body.url = true
    · simp [postVideo_flat, savedOr, hv]
    · push_neg at hv
      simp [postVideo_flat, savedOr, hv.1, hv.2,
        objGet_objSet_other _ _ _ _ hmn]
  · cases hx : objGet fcat n with
    | none => simp [deleteVideo_flat, savedOr, hx]
    | some vs =>
        by_cases hi : i < vs.length
        · simp [deleteVideo_flat, savedOr, hx, hi,
            objGet_objSet_other _ _ _ _ hmn]
        · simp [deleteVideo_flat, savedOr, hx, hi]

/-- Witness for C9: mutations addressed at "music" leave "news" intact. -/
theorem claim9_witness :
    objGet (savedOr demoCatalog (postVideo_p001 "music"
      ⟨some "a", none, some "b", none⟩ demoCatalog)) "news" =
      objGet demoCatalog "news" ∧
    objGet (savedOr demoCatalog (deleteCategory_p001 "music" demoCatalog))
      "news" = objGet demoCatalog "news" := by
  have h := claim9_other_categories_unchanged demoCatalog demoFlat "music"
    "news" (by decide) ⟨some "a", none, some "b", none⟩ 0 (some "x")
  exact ⟨h.1, h.2.2.2.2.2.1⟩

/-- C10 (error atomicity): whenever a handler produces an error response
(400 validation/conflict or 404 not-found), it returns before calling
`writeVideos` — the second component of the handler outcome is `none`, so
the persisted document is untouched. -/
theorem claim10_error_responses_do_not_write (cat : Catalog)
    (fcat : FlatCatalog) (n : String) (body : VideoBody) (i : Nat)
    (t name : Option String) :
    (∀ er, (postVideo_p001 n body cat).1 = .error er →
      (postVideo_p001 n body cat).2 = none) ∧
    (∀ er, (deleteVideo_p001 n i cat).1 = .error er →
      (deleteVideo_p001 n i cat).2 = none) ∧
    (∀ er, (patchVideoThumbnail_srv2 n i t cat).1 = .error er →
      (patchVideoThumbnail_srv2 n i t cat).2 = none) ∧
    (∀ er, (postCategory_p001 name cat).1 = .error er →
      (postCategory_p001 name cat).2 = none) ∧
    (∀ er, (patchCategoryThumbnail_p001 n t cat).1 = .error er →
      (patchCategoryThumbnail_p001 n t cat).2 = none) ∧
    (∀ er, (deleteCategory_p001 n cat).1 = .error er →
      (deleteCategory_p001 n cat).2 = none) ∧
    (∀ er, (postVideo_flat n body fcat).1 = .error er →
      (postVideo_flat n body fcat).2 = none) ∧
    (∀ er, (deleteVideo_flat n i fcat).1 = .error er →
      (deleteVideo_flat n i fcat).2 = none) ∧
    (∀ er, (postCategory_p000 name fcat).1 = .error er →
      (postCategory_p000 name fcat).2 = none) ∧
    (∀ er, (deleteCategory_p000 n fcat).1 = .error er →
      (deleteCategory_p000 n fcat).2 = none) := by
  refine ⟨?_, ?_, ?_, ?_, ?_, ?_, ?_, ?_, ?_, ?_⟩ <;> intro er h
  · cases hx : objGet cat n with
    | none => simp [postVideo_p001, hx]
    | some c => simp [postVideo_p001, hx] at h
  · cases hx : objGet cat n with
    | none => simp [deleteVideo_p001, hx]
    | some c =>
        by_cases hi : i < c.videos.length
        · simp [deleteVideo_p001, hx, hi] at h
        · simp [deleteVideo_p001, hx, hi]
  · by_cases hft : falsy t = true
    · simp [patchVideoThumbnail_srv2, hft]
    · cases hx : objGet cat n with
      | none => simp [patchVideoThumbnail_srv2, hft, hx]
      | some c =>
          by_cases hi : i < c.videos.length
          · simp [patchVideoThumbnail_srv2, hft, hx, hi] at h
          · simp [patchVideoThumbnail_srv2, hft, hx, hi]
  · by_cases hfn : falsy name = true
    · simp [postCategory_p001, hfn]
    · cases hx : objGet cat (name.getD "") with
      | some c => simp [postCategory_p001, hfn, hx]
      | none => simp [postCategory_p001, hfn, hx] at h
  · by_cases hft : falsy t = true
    · simp [patchCategoryThumbnail_p001, hft]
    · cases hx : objGet cat n with
      | none => simp [patchCategoryThumbnail_p001, hft, hx]
      | some c => simp [patchCategoryThumbnail_p001, hft, hx] at h
  · cases hx : objGet cat n with
    | none => simp [deleteCategory_p001, hx]
    | some c => simp [deleteCategory_p001, hx] at h
  · by_cases hv : falsy body.title = true ∨ falsy body.url = true
    · simp [postVideo_flat, hv]
    · push_neg at hv
      simp [postVideo_flat, hv.1, hv.2] at h
  · cases hx : objGet fcat n with
    | none => simp [deleteVideo_flat, hx]
    | some vs =>
        by_cases hi : i < vs.length
        · simp [deleteVideo_flat, hx, hi] at h
        · simp [deleteVideo_flat, hx, hi]
  · by_cases hfn : falsy name = true
    · simp [postCategory_p000, hfn]
    · cases hx : objGet fcat (name.getD "") with
      | some vs => simp [postCategory_p000, hfn, hx]
      | none => simp [postCategory_p000, hfn, hx] at h
  · cases hx : objGet fcat n with
    | none => simp [deleteCategory_p000, hx]
    | some vs => simp [deleteCategory_p000, hx] at h

/-- Witness for C10 on concrete erroring requests. -/
theorem claim10_witness :
    (postVideo_p001 "missing" ⟨some "a", none, some "b", none⟩ []).2 = none ∧
    (deleteVideo_p001 "music" 5 demoCatalog).2 = none ∧
    (postCategory_p001 (some "music") demoCatalog).2 = none ∧
    (deleteCategory_p000 "missing" demoFlat).2 = none := by
  have h1 := (claim10_error_responses_do_not_write [] [] "missing"
    ⟨some "a", none, some "b", none⟩ 0 none none).1
    ⟨404, "Category does not exist"⟩ rfl
  have h2 := (claim10_error_responses_do_not_write demoCatalog demoFlat "music"
    ⟨none, none, none, none⟩ 5 none (some "music")).2.1
    ⟨404, "Video not found"⟩ rfl
  have h3 := (claim10_error_responses_do_not_write demoCatalog demoFlat "music"
    ⟨none, none, none, none⟩ 5 none (some "music")).2.2.2.1
    ⟨400, "Category already exists"⟩ rfl
  have h4 := (claim10_error_responses_do_not_write demoCatalog demoFlat "missing"
    ⟨none, none, none, none⟩ 0 none none).2.2.2.2.2.2.2.2.2
    ⟨404, "Category not found"⟩ rfl
  exact ⟨h1, h2, h3, h4⟩

end YoutubeService
